import Mathlib

/-!
Verification development for the PDF data-extraction tool
(`pdf_extractor.py`).

The module is a thin orchestration layer over four optional third-party
backends (PyPDF2, pdfplumber, tabula-py, pytesseract/pdf2image).  The
shallow embedding below models:

* the module-level availability flags set by the import probes
  (`Availability`);
* what each external backend hands back to the wrapper for the input
  document (`Doc`), with `none` standing for an internal backend failure
  whose exception the wrapper catches;
* the `results` dictionary of `extract_all_data` as an insertion-ordered
  association list (`Results`), exactly as Python builds it;
* the file system touched by `save_results` (`FS`), with `Path.mkdir`
  modelled including its non-recursive behaviour (`parents=False`).

Printing to stdout has no claim about it and is not modelled.  A tabula
table (a pandas DataFrame in the source) is abstracted to the CSV text
that `to_csv` serializes for it.
-/

/-- Errors surfaced by the tool: the `ImportError` raised by a single-method
extractor when its backend is missing, and the `FileNotFoundError` raised by
the constructor for a missing input path or by `Path.mkdir` for a missing
parent directory. -/
inductive Err where
  | backendUnavailable : Err
  | fileNotFound : Err
deriving DecidableEq, Repr

/-- The four module-level availability flags computed by the try-import
probes at the top of `pdf_extractor.py`. -/
structure Availability where
  PYPDF2_AVAILABLE : Bool
  PDFPLUMBER_AVAILABLE : Bool
  TABULA_AVAILABLE : Bool
  OCR_AVAILABLE : Bool
deriving DecidableEq, Repr

/-- A pdfplumber table: rows of cells; a cell is `none` for a missing
(`None`) cell. -/
abbrev Table := List (List (Option String))

/-- Result of opening the document with `PyPDF2.PdfReader` for metadata:
the structural page count and the raw info dictionary (`pdf_reader.metadata`),
the latter `none` when the reader reports no metadata object. -/
structure PdfMeta where
  num_pages : Nat
  info : Option (List (String × String))
deriving DecidableEq, Repr

/-- What each backend yields for the input document when invoked.  A `none`
field models the backend raising internally (corrupt file, engine error);
the wrapping extractor catches that exception. -/
structure Doc where
  pypdf2_pages : Option (List String)
  plumber_pages : Option (List (Option String))
  plumber_page_tables : Option (List (List Table))
  tabula_tables : Option (List String)
  ocr_pages : Option (List String)
  meta : Option PdfMeta
deriving DecidableEq, Repr

/-- A value stored in the `results` dictionary of `extract_all_data`. -/
inductive Value where
  | meta : List (String × String) → Value
  | text : String → Value
  | tablesP : List Table → Value
  | tablesT : List String → Value
deriving DecidableEq, Repr

/-- The `results` dictionary, as an insertion-ordered association list. -/
abbrev Results := List (String × Value)

/-- Association-list lookup, Python `d.get(k)` / `d[k]`. -/
def alistGet {κ α : Type} [DecidableEq κ] : List (κ × α) → κ → Option α
  | [], _ => none
  | (k', v) :: rest, k => if k' = k then some v else alistGet rest k

/-- Association-list update, Python `d[k] = v`: replaces the value of an
existing key in place, appends at the end otherwise. -/
def alistSet {κ α : Type} [DecidableEq κ] : List (κ × α) → κ → α → List (κ × α)
  | [], k, v => [(k, v)]
  | (k', v') :: rest, k, v =>
      if k' = k then (k', v) :: rest else (k', v') :: alistSet rest k v

/-- A directory path, as its list of components. -/
abbrev DirPath := List String

/-- A file path: its directory plus its file name. -/
abbrev FPath := DirPath × String

/-- The file-system state the tool reads and writes: the set of existing
directories and the files with their contents. -/
structure FS where
  dirs : List DirPath
  files : List (FPath × String)
deriving DecidableEq, Repr

/-- Model of `open(path, 'w')` followed by writing `content`: creates the
file or overwrites an existing one. -/
def writeFile (fs : FS) (p : FPath) (content : String) : FS :=
  { fs with files := alistSet fs.files p content }

/-- Model of `Path(d).mkdir(exist_ok=True)`: no error if the directory
already exists, creates it when missing; since `parents=False` is the
default, a missing parent directory raises `FileNotFoundError`.  A
one-component relative path has the current directory as parent, which
always exists. -/
def mkdir_exist_ok (fs : FS) (d : DirPath) : Except Err FS :=
  if d ∈ fs.dirs then .ok fs
  else if d.dropLast = [] ∨ d.dropLast ∈ fs.dirs then
    .ok { fs with dirs := d :: fs.dirs }
  else .error .fileNotFound

/-- Model of `PDFExtractor.__init__`: raises `FileNotFoundError` unless the
input path exists. -/
def pdf_extractor_init (fs : FS) (pdf_path : FPath) : Except Err Unit :=
  if (alistGet fs.files pdf_path).isSome then .ok ()
  else .error .fileNotFound

/-- Page-boundary marker of the PyPDF2 and pdfplumber text extractors,
the f-string `"\n--- Page {page_num + 1} ---\n"`. -/
def pageMarker (n : Nat) : String := "\n--- Page " ++ toString n ++ " ---\n"

/-- Page-boundary marker of the OCR text extractor, the f-string
`"\n--- Page {page_num + 1} (OCR) ---\n"`. -/
def ocrPageMarker (n : Nat) : String := "\n--- Page " ++ toString n ++ " (OCR) ---\n"

/-- Accumulation loop of `extract_text_pypdf2`: per page, append the marker
and then the page's `extract_text()` result. -/
def pypdf2Loop (pages : List String) : String :=
  pages.enum.foldl (fun text pn => text ++ pageMarker (pn.1 + 1) ++ pn.2) ""

/-- Accumulation loop of `extract_text_pdfplumber`: the marker is always
appended, the page text only when truthy (`if page_text:`), i.e. neither
`None` nor the empty string. -/
def plumberLoop (pages : List (Option String)) : String :=
  pages.enum.foldl (fun text pn =>
    let text' := text ++ pageMarker (pn.1 + 1)
    match pn.2 with
    | none => text'
    | some s => if s.isEmpty then text' else text' ++ s) ""

/-- Accumulation loop of `extract_text_ocr` over the page images produced by
`convert_from_path`. -/
def ocrLoop (pages : List String) : String :=
  pages.enum.foldl (fun text pn => text ++ ocrPageMarker (pn.1 + 1) ++ pn.2) ""

/-- Model of `PDFExtractor.extract_text_pypdf2`: raises `ImportError` when
the backend is missing, otherwise catches any internal failure and returns
the accumulated text (empty when the file could not be opened). -/
def extract_text_pypdf2 (env : Availability) (doc : Doc) : Except Err String :=
  if !env.PYPDF2_AVAILABLE then .error .backendUnavailable
  else .ok (match doc.pypdf2_pages with
    | none => ""
    | some pages => pypdf2Loop pages)

/-- Model of `PDFExtractor.extract_text_pdfplumber`. -/
def extract_text_pdfplumber (env : Availability) (doc : Doc) : Except Err String :=
  if !env.PDFPLUMBER_AVAILABLE then .error .backendUnavailable
  else .ok (match doc.plumber_pages with
    | none => ""
    | some pages => plumberLoop pages)

/-- Model of `PDFExtractor.extract_tables_pdfplumber`: per page,
`all_tables.extend(tables)` when the page's table list is truthy; extending
by an empty list is a no-op, so the result is the concatenation of the
per-page lists. -/
def extract_tables_pdfplumber (env : Availability) (doc : Doc) : Except Err (List Table) :=
  if !env.PDFPLUMBER_AVAILABLE then .error .backendUnavailable
  else .ok (match doc.plumber_page_tables with
    | none => []
    | some pageTables => pageTables.flatten)

/-- Model of `PDFExtractor.extract_tables_tabula`: returns what
`tabula.read_pdf` found, or the empty list when the call raised. -/
def extract_tables_tabula (env : Availability) (doc : Doc) : Except Err (List String) :=
  if !env.TABULA_AVAILABLE then .error .backendUnavailable
  else .ok (match doc.tabula_tables with
    | none => []
    | some ts => ts)

/-- Model of `PDFExtractor.extract_text_ocr`. -/
def extract_text_ocr (env : Availability) (doc : Doc) : Except Err String :=
  if !env.OCR_AVAILABLE then .error .backendUnavailable
  else .ok (match doc.ocr_pages with
    | none => ""
    | some pages => ocrLoop pages)

/-- Descriptive metadata fields read by `get_pdf_metadata`, in source order,
each with the raw PDF info key it is read from. -/
def metaFields : List (String × String) :=
  [("title", "/Title"), ("author", "/Author"), ("subject", "/Subject"),
   ("creator", "/Creator"), ("producer", "/Producer"),
   ("creation_date", "/CreationDate")]

/-- Model of `pdf_reader.metadata.get(key, 'N/A') if pdf_reader.metadata
else 'N/A'`. -/
def metaGet (info : Option (List (String × String))) (key : String) : String :=
  match info with
  | none => "N/A"
  | some m => (alistGet m key).getD "N/A"

/-- Record built by `metadata.update({...})` on success: the structural page
count first, then the descriptive fields, each defaulting to `"N/A"`. -/
def metaRecord (m : PdfMeta) : List (String × String) :=
  ("num_pages", toString m.num_pages) ::
    metaFields.map (fun f => (f.1, metaGet m.info f.2))

/-- Model of `PDFExtractor.get_pdf_metadata`: skipped entirely (empty dict)
when PyPDF2 is missing; any failure to open or parse is caught, leaving the
dict empty; never raises. -/
def get_pdf_metadata (env : Availability) (doc : Doc) : List (String × String) :=
  if env.PYPDF2_AVAILABLE then
    match doc.meta with
    | none => []
    | some m => metaRecord m
  else []

/-- Model of `str(cell) if cell else ''`: `None` and the empty string are
falsy and render as the empty string. -/
def cellStr : Option String → String
  | none => ""
  | some s => s

/-- One written row of a pdfplumber table: `'\t'.join(...) + '\n'`. -/
def rowLine (row : List (Option String)) : String :=
  String.intercalate "\t" (row.map cellStr) ++ "\n"

/-- Table header written by `save_results`, the f-string
`"\n=== Table {i+1} (pdfplumber) ===\n"`. -/
def tableHeader (n : Nat) : String :=
  "\n=== Table " ++ toString n ++ " (pdfplumber) ===\n"

/-- Content of the combined pdfplumber tables file, as produced by the
nested loop of `save_results`. -/
def plumberTablesContent (tables : List Table) : String :=
  tables.enum.foldl (fun acc it =>
    it.2.foldl (fun acc' row => acc' ++ rowLine row) (acc ++ tableHeader (it.1 + 1))) ""

/-- One persisted metadata line, the f-string `f"{key}: {value}\n"`. -/
def metaLine (kv : String × String) : String :=
  kv.1 ++ ": " ++ kv.2 ++ "\n"

/-- Content of the metadata file: one `f"{key}: {value}\n"` line per entry,
in dictionary order. -/
def metadataContent (m : List (String × String)) : String :=
  m.foldl (fun acc kv => acc ++ metaLine kv) ""

/-- Reading `results.get(k)` where a text value is expected: a missing key
or a non-text value is falsy and reads as the empty string (when called from
`extract_all_data` the key is always present and holds text). -/
def getText (r : Results) (k : String) : String :=
  match alistGet r k with
  | some (.text t) => t
  | _ => ""

/-- Reading `results['tables_pdfplumber']`. -/
def getTablesP (r : Results) : List Table :=
  match alistGet r "tables_pdfplumber" with
  | some (.tablesP ts) => ts
  | _ => []

/-- Reading `results['tables_tabula']`. -/
def getTablesT (r : Results) : List String :=
  match alistGet r "tables_tabula" with
  | some (.tablesT ts) => ts
  | _ => []

/-- Reading `results['metadata']`. -/
def getMeta (r : Results) : List (String × String) :=
  match alistGet r "metadata" with
  | some (.meta m) => m
  | _ => []

/-- The three text methods iterated by `save_results`, in source order. -/
def textMethods : List String := ["pypdf2", "pdfplumber", "ocr"]

/-- File name `f"{base_name}_{method}_text.txt"`. -/
def textFileName (base method : String) : String :=
  base ++ ("_" ++ method ++ "_text.txt")

/-- File name `f"{base_name}_pdfplumber_tables.txt"`. -/
def plumberTablesFileName (base : String) : String :=
  base ++ "_pdfplumber_tables.txt"

/-- File name `f"{base_name}_tabula_table_{i+1}.csv"`. -/
def tabulaFileName (base : String) (i : Nat) : String :=
  base ++ ("_tabula_table_" ++ toString (i + 1) ++ ".csv")

/-- File name `f"{base_name}_metadata.txt"`. -/
def metadataFileName (base : String) : String :=
  base ++ "_metadata.txt"

/-- One iteration of the text-saving loop of `save_results`: test
`results.get(text_key)` for truthiness and, when non-empty, write it to
`<base>_<method>_text.txt`. -/
def textStep (base : String) (results : Results) (d : DirPath) (acc : FS)
    (method : String) : FS :=
  if (getText results ("text_" ++ method)).isEmpty then acc
  else writeFile acc (d, textFileName base method) (getText results ("text_" ++ method))

/-- First write section of `save_results`: the loop over the three text
methods. -/
def writeTexts (base : String) (results : Results) (d : DirPath) (fs : FS) : FS :=
  textMethods.foldl (textStep base results d) fs

/-- Second write section of `save_results`: the combined pdfplumber tables
file, written only when the table list is truthy (non-empty). -/
def writePlumberTables (base : String) (results : Results) (d : DirPath) (fs : FS) : FS :=
  if (getTablesP results).isEmpty then fs
  else writeFile fs (d, plumberTablesFileName base)
    (plumberTablesContent (getTablesP results))

/-- Third write section of `save_results`: one CSV file per tabula table,
1-indexed in the file name. -/
def writeTabula (base : String) (results : Results) (d : DirPath) (fs : FS) : FS :=
  if (getTablesT results).isEmpty then fs
  else (getTablesT results).enum.foldl (fun acc it =>
    writeFile acc (d, tabulaFileName base it.1) it.2) fs

/-- Last write section of `save_results`: the metadata file, always
written. -/
def writeMetadata (base : String) (results : Results) (d : DirPath) (fs : FS) : FS :=
  writeFile fs (d, metadataFileName base) (metadataContent (getMeta results))

/-- The pure write sequence of `save_results`, in source order, after the
output directory has been ensured. -/
def save_writes (base : String) (results : Results) (d : DirPath) (fs : FS) : FS :=
  writeMetadata base results d
    (writeTabula base results d
      (writePlumberTables base results d
        (writeTexts base results d fs)))

/-- Model of `PDFExtractor.save_results`: ensure the output directory
(non-recursive mkdir with `exist_ok=True`), write each truthy text field to
its `_text.txt` file, the pdfplumber tables (when non-empty) to one combined
file, each tabula table to its own CSV file, and always the metadata file. -/
def save_results (base : String) (results : Results) (output_dir : DirPath)
    (fs : FS) : Except Err FS := do
  let fs1 ← mkdir_exist_ok fs output_dir
  pure (save_writes base results output_dir fs1)

/-- The initial `results` dictionary of `extract_all_data`, with its six
fixed keys and the metadata already read. -/
def initResults (env : Availability) (doc : Doc) : Results :=
  [("metadata", .meta (get_pdf_metadata env doc)),
   ("text_pypdf2", .text ""),
   ("text_pdfplumber", .text ""),
   ("text_ocr", .text ""),
   ("tables_pdfplumber", .tablesP []),
   ("tables_tabula", .tablesT [])]

/-- Model of `PDFExtractor.extract_all_data`: assemble the dictionary, run
each extractor under its availability guard (OCR additionally under the
`use_ocr` flag), then save when an output directory is given.  Exceptions of
the guarded calls would propagate, as in Python. -/
def extract_all_data (env : Availability) (doc : Doc) (base : String)
    (use_ocr : Bool) (output_dir : Option DirPath) (fs : FS) :
    Except Err (Results × FS) := do
  let results := initResults env doc
  let results ←
    if env.PYPDF2_AVAILABLE then do
      let t ← extract_text_pypdf2 env doc
      pure (alistSet results "text_pypdf2" (.text t))
    else pure results
  let results ←
    if env.PDFPLUMBER_AVAILABLE then do
      let t ← extract_text_pdfplumber env doc
      let results := alistSet results "text_pdfplumber" (.text t)
      let ts ← extract_tables_pdfplumber env doc
      pure (alistSet results "tables_pdfplumber" (.tablesP ts))
    else pure results
  let results ←
    if env.TABULA_AVAILABLE then do
      let ts ← extract_tables_tabula env doc
      pure (alistSet results "tables_tabula" (.tablesT ts))
    else pure results
  let results ←
    if use_ocr && env.OCR_AVAILABLE then do
      let t ← extract_text_ocr env doc
      pure (alistSet results "text_ocr" (.text t))
    else pure results
  let fs' ←
    match output_dir with
    | some d => save_results base results d fs
    | none => pure fs
  pure (results, fs')

/-! Helper lemmas about strings, folds and association lists. -/

theorem str_ext {s t : String} (h : s.data = t.data) : s = t := by
  cases s; cases t; exact congrArg String.mk h

theorem str_append_left_cancel {b s t : String} (h : b ++ s = b ++ t) : s = t := by
  have h' := congrArg String.data h
  rw [String.data_append, String.data_append] at h'
  exact str_ext (List.append_cancel_left h')

theorem str_append_ne {b s t : String} (h : s ≠ t) : b ++ s ≠ b ++ t :=
  fun e => h (str_append_left_cancel e)

/-- First two characters of a string, a cheap discriminator for file-name
disjointness. -/
def headTwo (s : String) : Option (Char × Char) :=
  match s.data with
  | a :: b :: _ => some (a, b)
  | _ => none

theorem ne_of_headTwo {s t : String} (h : headTwo s ≠ headTwo t) : s ≠ t :=
  fun e => h (congrArg headTwo e)

theorem foldl_append_str (xs : List String) : ∀ a : String,
    xs.foldl (· ++ ·) a = a ++ xs.foldl (· ++ ·) "" := by
  induction xs with
  | nil => intro a; exact (String.append_empty a).symm
  | cons x xs ih =>
    intro a
    simp only [List.foldl_cons]
    rw [ih (a ++ x), ih ("" ++ x), String.empty_append, String.append_assoc]

theorem join_cons (x : String) (xs : List String) :
    String.join (x :: xs) = x ++ String.join xs := by
  simp only [String.join, List.foldl_cons, String.empty_append]
  exact foldl_append_str xs x

theorem join_append_str (l1 l2 : List String) :
    String.join (l1 ++ l2) = String.join l1 ++ String.join l2 := by
  induction l1 with
  | nil =>
    show String.join l2 = String.join [] ++ String.join l2
    rw [show String.join [] = "" from rfl, String.empty_append]
  | cons x xs ih =>
    rw [List.cons_append, join_cons, join_cons, ih, String.append_assoc]

theorem foldl_append_eq_join {α : Type} (f : α → String) (l : List α) :
    ∀ init : String,
      l.foldl (fun acc x => acc ++ f x) init = init ++ String.join (l.map f) := by
  induction l with
  | nil => intro init; exact (String.append_empty init).symm
  | cons x xs ih =>
    intro init
    simp only [List.foldl_cons, List.map_cons]
    rw [ih, join_cons, String.append_assoc]

theorem foldl_congr_mem {α β : Type} {f g : β → α → β} {l : List α}
    (h : ∀ b a, a ∈ l → f b a = g b a) : ∀ init, l.foldl f init = l.foldl g init := by
  induction l with
  | nil => intro _; rfl
  | cons x xs ih =>
    intro init
    simp only [List.foldl_cons]
    rw [h init x (List.mem_cons_self x xs)]
    exact ih (fun b a ha => h b a (List.mem_cons_of_mem _ ha)) _

theorem enumFrom_map_snd {α β : Type} (f : α → β) (l : List α) :
    ∀ n, (l.map f).enumFrom n = (l.enumFrom n).map (fun p => (p.1, f p.2)) := by
  induction l with
  | nil => intro _; rfl
  | cons x xs ih => intro n; simp [List.enumFrom, ih]

theorem alistGet_set_self {κ α : Type} [DecidableEq κ] (l : List (κ × α)) (k : κ) (v : α) :
    alistGet (alistSet l k v) k = some v := by
  induction l with
  | nil => simp [alistGet, alistSet]
  | cons p rest ih =>
    by_cases h : p.1 = k
    · simp [alistGet, alistSet, h]
    · simp [alistGet, alistSet, h, ih]

theorem alistGet_set_ne {κ α : Type} [DecidableEq κ] (l : List (κ × α)) (k k' : κ) (v : α)
    (h : k' ≠ k) : alistGet (alistSet l k v) k' = alistGet l k' := by
  have hk : k ≠ k' := Ne.symm h
  induction l with
  | nil => simp [alistGet, alistSet, hk]
  | cons p rest ih =>
    by_cases hp : p.1 = k
    · subst hp
      simp [alistGet, alistSet, hk]
    · simp only [alistSet, if_neg hp]
      by_cases hp' : p.1 = k'
      · simp [alistGet, hp']
      · simp [alistGet, hp', ih]

/-- The `results` dictionary as fully assembled by `extract_all_data`,
before any saving: each field is filled exactly when its guard ran. -/
def finalResults (env : Availability) (doc : Doc) (use_ocr : Bool) : Results :=
  [("metadata", .meta (get_pdf_metadata env doc)),
   ("text_pypdf2", .text (if env.PYPDF2_AVAILABLE then
      (match doc.pypdf2_pages with | none => "" | some ps => pypdf2Loop ps) else "")),
   ("text_pdfplumber", .text (if env.PDFPLUMBER_AVAILABLE then
      (match doc.plumber_pages with | none => "" | some ps => plumberLoop ps) else "")),
   ("text_ocr", .text (if use_ocr && env.OCR_AVAILABLE then
      (match doc.ocr_pages with | none => "" | some ps => ocrLoop ps) else "")),
   ("tables_pdfplumber", .tablesP (if env.PDFPLUMBER_AVAILABLE then
      (match doc.plumber_page_tables with | none => [] | some ts => ts.flatten) else [])),
   ("tables_tabula", .tablesT (if env.TABULA_AVAILABLE then
      (match doc.tabula_tables with | none => [] | some ts => ts) else []))]

theorem extract_all_data_none_eq (env : Availability) (doc : Doc) (base : String)
    (u : Bool) (fs : FS) :
    extract_all_data env doc base u none fs = .ok (finalResults env doc u, fs) := by
  obtain ⟨p1, p2, p3, p4⟩ := env
  cases p1 <;> cases p2 <;> cases p3 <;> cases p4 <;> cases u <;> rfl

theorem extract_all_data_some_eq (env : Availability) (doc : Doc) (base : String)
    (u : Bool) (d : DirPath) (fs : FS) :
    extract_all_data env doc base u (some d) fs
      = (save_results base (finalResults env doc u) d fs).bind
          (fun fs' => .ok (finalResults env doc u, fs')) := by
  obtain ⟨p1, p2, p3, p4⟩ := env
  cases p1 <;> cases p2 <;> cases p3 <;> cases p4 <;> cases u <;> rfl

/-- Specification-shaped page concatenation (taken from the spec's words):
for each page in document order, the 1-indexed page-boundary marker followed
by that page's text. -/
def specPageConcat (marker : Nat → String) (texts : List String) : String :=
  String.join (texts.enum.map (fun pn => marker (pn.1 + 1) ++ pn.2))

/-- Page text as contributed by the pdfplumber loop: a `None` page or an
empty page contributes the empty string, not an error. -/
def optText : Option String → String
  | none => ""
  | some s => s

theorem pypdf2Go (pages : List String) : ∀ (n : Nat) (init : String),
    (pages.enumFrom n).foldl (fun text pn => text ++ pageMarker (pn.1 + 1) ++ pn.2) init
      = init ++ String.join ((pages.enumFrom n).map
          (fun pn => pageMarker (pn.1 + 1) ++ pn.2)) := by
  induction pages with
  | nil => intro n init; exact (String.append_empty init).symm
  | cons x xs ih =>
    intro n init
    simp only [List.enumFrom, List.foldl_cons, List.map_cons]
    rw [ih, join_cons]
    simp [String.append_assoc]

theorem ocrGo (pages : List String) : ∀ (n : Nat) (init : String),
    (pages.enumFrom n).foldl (fun text pn => text ++ ocrPageMarker (pn.1 + 1) ++ pn.2) init
      = init ++ String.join ((pages.enumFrom n).map
          (fun pn => ocrPageMarker (pn.1 + 1) ++ pn.2)) := by
  induction pages with
  | nil => intro n init; exact (String.append_empty init).symm
  | cons x xs ih =>
    intro n init
    simp only [List.enumFrom, List.foldl_cons, List.map_cons]
    rw [ih, join_cons]
    simp [String.append_assoc]

theorem plumberGo (pages : List (Option String)) : ∀ (n : Nat) (init : String),
    (pages.enumFrom n).foldl (fun text pn =>
        let text' := text ++ pageMarker (pn.1 + 1)
        match pn.2 with
        | none => text'
        | some s => if s.isEmpty then text' else text' ++ s) init
      = init ++ String.join ((pages.enumFrom n).map
          (fun pn => pageMarker (pn.1 + 1) ++ optText pn.2)) := by
  induction pages with
  | nil => intro n init; exact (String.append_empty init).symm
  | cons x xs ih =>
    intro n init
    simp only [List.enumFrom, List.foldl_cons, List.map_cons]
    cases x with
    | none =>
      rw [ih, join_cons]
      simp [optText, String.append_assoc, String.append_empty]
    | some s =>
      by_cases hs : s.isEmpty = true
      · have he : s = "" := (String.isEmpty_iff s).mp hs
        subst he
        simp only [if_pos hs]
        rw [ih, join_cons]
        simp [optText, String.append_assoc, String.append_empty]
      · simp only [if_neg hs]
        rw [ih, join_cons]
        simp [optText, String.append_assoc]

theorem pypdf2Loop_eq_concat (pages : List String) :
    pypdf2Loop pages = specPageConcat pageMarker pages := by
  have h := pypdf2Go pages 0 ""
  rw [String.empty_append] at h
  exact h

theorem ocrLoop_eq_concat (pages : List String) :
    ocrLoop pages = specPageConcat ocrPageMarker pages := by
  have h := ocrGo pages 0 ""
  rw [String.empty_append] at h
  exact h

theorem plumberLoop_eq_concat (pages : List (Option String)) :
    plumberLoop pages = specPageConcat pageMarker (pages.map optText) := by
  have h := plumberGo pages 0 ""
  rw [String.empty_append] at h
  unfold specPageConcat
  rw [show (pages.map optText).enum = pages.enum.map (fun p => (p.1, optText p.2)) from
    enumFrom_map_snd optText pages 0, List.map_map]
  exact h

/-! Concrete sample fixtures used by witnesses and counterexamples. -/

/-- Sample availability with every backend present. -/
def envAll : Availability := ⟨true, true, true, true⟩

/-- Sample availability with every backend missing. -/
def envMissing : Availability := ⟨false, false, false, false⟩

/-- Sample one-page document: every text pass reads "x", no tables, a parsed
metadata object with no info dictionary. -/
def docOne : Doc :=
  { pypdf2_pages := some ["x"], plumber_pages := some [some "x"],
    plumber_page_tables := some [[]], tabula_tables := some [],
    ocr_pages := some ["x"], meta := some ⟨1, none⟩ }

/-- Sample file system with no directories and no files. -/
def fsEmpty : FS := ⟨[], []⟩

/-- Sample file system holding only the input document, with no
directories. -/
def fsDoc : FS := ⟨[], [(((["in"] : DirPath), "doc.pdf"), "pdf-bytes")]⟩

/-- Sample file system where only the output directory exists. -/
def fsOut : FS := ⟨[["out"]], []⟩

/-- A general fact: a successful `extract_all_data` call always returns the
fully assembled dictionary, whichever saving path was taken. -/
theorem extract_all_data_ok_results (env : Availability) (doc : Doc) (base : String)
    (u : Bool) (od : Option DirPath) (fs fs' : FS) (r : Results)
    (h : extract_all_data env doc base u od fs = .ok (r, fs')) :
    r = finalResults env doc u := by
  cases od with
  | none =>
    rw [extract_all_data_none_eq] at h
    exact ((Prod.mk.injEq _ _ _ _).mp (Except.ok.inj h)).1.symm
  | some d =>
    rw [extract_all_data_some_eq] at h
    cases hs : save_results base (finalResults env doc u) d fs with
    | ok fs2 =>
      rw [hs] at h
      exact ((Prod.mk.injEq _ _ _ _).mp (Except.ok.inj h)).1.symm
    | error e =>
      rw [hs] at h
      exact absurd h (by simp [Except.bind])

/-- C1: on every input document and every combination of backend
availability, a mapping returned by `extract_all_data` has exactly the six
fixed keys, in insertion order, and every key whose backend did not run
holds its default value: the empty string for text fields and the empty list
for table fields, never absent. -/
theorem C1_six_keys_with_defaults (env : Availability) (doc : Doc) (base : String)
    (u : Bool) (od : Option DirPath) (fs fs' : FS) (r : Results)
    (h : extract_all_data env doc base u od fs = .ok (r, fs')) :
    r.map Prod.fst = ["metadata", "text_pypdf2", "text_pdfplumber", "text_ocr",
        "tables_pdfplumber", "tables_tabula"]
  ∧ (env.PYPDF2_AVAILABLE = false → alistGet r "text_pypdf2" = some (.text ""))
  ∧ (env.PDFPLUMBER_AVAILABLE = false → alistGet r "text_pdfplumber" = some (.text "")
        ∧ alistGet r "tables_pdfplumber" = some (.tablesP []))
  ∧ (env.TABULA_AVAILABLE = false → alistGet r "tables_tabula" = some (.tablesT []))
  ∧ ((u && env.OCR_AVAILABLE) = false → alistGet r "text_ocr" = some (.text "")) := by
  have hr := extract_all_data_ok_results env doc base u od fs fs' r h
  subst hr
  refine ⟨rfl, ?_, ?_, ?_, ?_⟩ <;> intro hf <;> simp [finalResults, alistGet, hf]

/-- Witness for C1 at a concrete input: no backend available, no output
directory. -/
theorem C1_six_keys_with_defaults_witness :
    (finalResults envMissing docOne false).map Prod.fst
        = ["metadata", "text_pypdf2", "text_pdfplumber", "text_ocr",
           "tables_pdfplumber", "tables_tabula"]
  ∧ alistGet (finalResults envMissing docOne false) "text_pypdf2" = some (.text "")
  ∧ (alistGet (finalResults envMissing docOne false) "text_pdfplumber" = some (.text "")
        ∧ alistGet (finalResults envMissing docOne false) "tables_pdfplumber"
            = some (.tablesP []))
  ∧ alistGet (finalResults envMissing docOne false) "tables_tabula" = some (.tablesT [])
  ∧ alistGet (finalResults envMissing docOne false) "text_ocr" = some (.text "") := by
  have h := C1_six_keys_with_defaults envMissing docOne "doc" false none fsEmpty fsEmpty
    (finalResults envMissing docOne false)
    (extract_all_data_none_eq envMissing docOne "doc" false fsEmpty)
  exact ⟨h.1, h.2.1 rfl, h.2.2.1 rfl, h.2.2.2.1 rfl, h.2.2.2.2 rfl⟩

/-- Decidable equality for `Except`, so that concrete runs of the model can
be checked by `decide`. -/
instance {e a : Type} [DecidableEq e] [DecidableEq a] : DecidableEq (Except e a) :=
  fun x y =>
    match x, y with
    | .ok v, .ok w =>
      if h : v = w then isTrue (congrArg Except.ok h)
      else isFalse (fun q => h (Except.ok.inj q))
    | .ok _, .error _ => isFalse (fun q => Except.noConfusion q)
    | .error _, .ok _ => isFalse (fun q => Except.noConfusion q)
    | .error v, .error w =>
      if h : v = w then isTrue (congrArg Except.error h)
      else isFalse (fun q => h (Except.error.inj q))

/-- C2 counterexample: on a file system holding the input document, so that
construction succeeds, but with an output directory whose parent does not
exist, the orchestration still raises — `save_results` propagates the
`FileNotFoundError` from `mkdir` through `extract_all_data` — refuting that
the missing input path is the only condition under which it may raise. -/
theorem C2_raises_counterexample :
    pdf_extractor_init fsDoc (["in"], "doc.pdf") = .ok ()
  ∧ extract_all_data envAll docOne "doc" false (some ["a", "b"]) fsDoc
      = .error .fileNotFound := by
  constructor
  · decide
  · decide

/-- C2 (amended): `extract_all_data` never raises for failures internal to
any backend — with no output directory it returns the fully assembled result
unconditionally, for every availability combination and every document,
including every internal-failure combination; the missing-input-path error
is raised at construction (and exactly when the input path is absent); when
an output directory is given, the call raises exactly when persisting the
results fails (`save_results` propagates the write failure; when saving
succeeds the assembled result is returned). -/
theorem C2_returns_unconditionally_amended :
    (∀ (env : Availability) (doc : Doc) (base : String) (u : Bool) (fs : FS),
        ∃ r : Results, extract_all_data env doc base u none fs = .ok (r, fs))
  ∧ (∀ (env : Availability) (doc : Doc) (base : String) (u : Bool) (d : DirPath)
        (fs : FS) (e : Err),
        extract_all_data env doc base u (some d) fs = .error e →
        save_results base (finalResults env doc u) d fs = .error e)
  ∧ (∀ (fs : FS) (p : FPath),
        pdf_extractor_init fs p = .error .fileNotFound ↔ alistGet fs.files p = none)
  ∧ (∀ (env : Availability) (doc : Doc) (base : String) (u : Bool) (d : DirPath)
        (fs fs2 : FS),
        save_results base (finalResults env doc u) d fs = .ok fs2 →
        extract_all_data env doc base u (some d) fs
          = .ok (finalResults env doc u, fs2)) := by
  refine ⟨?_, ?_, ?_, ?_⟩
  · intro env doc base u fs
    exact ⟨finalResults env doc u, extract_all_data_none_eq env doc base u fs⟩
  · intro env doc base u d fs e h
    rw [extract_all_data_some_eq] at h
    cases hs : save_results base (finalResults env doc u) d fs with
    | ok fs2 => rw [hs] at h; exact absurd h (by simp [Except.bind])
    | error e' =>
      rw [hs] at h
      simp only [Except.bind, Except.error.injEq] at h
      rw [← h]
  · intro fs p
    unfold pdf_extractor_init
    cases hg : alistGet fs.files p with
    | none => simp [hg]
    | some c => simp [hg]
  · intro env doc base u d fs fs2 h
    rw [extract_all_data_some_eq, h]
    rfl

/-- Witness for C2 (amended) at concrete inputs: the failing save scenario
of a two-component output directory whose parent is missing, and the
succeeding save scenario of an existing output directory. -/
theorem C2_returns_unconditionally_amended_witness :
    save_results "doc" (finalResults envAll docOne false) ["a", "b"] fsDoc
      = .error .fileNotFound
  ∧ extract_all_data envAll docOne "doc" false (some ["out"]) fsOut
      = .ok (finalResults envAll docOne false,
             save_writes "doc" (finalResults envAll docOne false) ["out"] fsOut) :=
  ⟨C2_returns_unconditionally_amended.2.1 envAll docOne "doc" false ["a", "b"] fsDoc
      .fileNotFound (by decide),
   C2_returns_unconditionally_amended.2.2.2 envAll docOne "doc" false ["out"] fsOut
      (save_writes "doc" (finalResults envAll docOne false) ["out"] fsOut) (by decide)⟩

/-- C3: `extract_all_data` fills the OCR field if and only if `use_ocr` is
true AND the OCR backend is available; with `use_ocr=false`, or with OCR
requested but unavailable, the field is the empty string and no error is
raised. -/
theorem C3_ocr_iff_flag_and_available (env : Availability) (doc : Doc) (base : String)
    (u : Bool) (fs : FS) :
    ∃ r : Results, extract_all_data env doc base u none fs = .ok (r, fs)
      ∧ ((u = false ∨ env.OCR_AVAILABLE = false) → alistGet r "text_ocr" = some (.text ""))
      ∧ (∀ t : String, u = true → extract_text_ocr env doc = .ok t →
            alistGet r "text_ocr" = some (.text t)) := by
  refine ⟨finalResults env doc u, extract_all_data_none_eq env doc base u fs, ?_, ?_⟩
  · intro h
    rcases h with h | h <;> simp [finalResults, alistGet, h]
  · intro t hu ht
    subst hu
    cases hocr : env.OCR_AVAILABLE with
    | false => simp [extract_text_ocr, hocr] at ht
    | true =>
      simp only [extract_text_ocr, hocr, Bool.not_true, Bool.false_eq_true, if_false,
        Except.ok.injEq] at ht
      simp [finalResults, alistGet, hocr, ht]

/-- Witness for C3 at a concrete input. -/
theorem C3_ocr_iff_flag_and_available_witness :
    ∃ r : Results, extract_all_data envAll docOne "doc" false none fsEmpty = .ok (r, fsEmpty)
      ∧ ((false = false ∨ envAll.OCR_AVAILABLE = false) →
            alistGet r "text_ocr" = some (.text ""))
      ∧ (∀ t : String, false = true → extract_text_ocr envAll docOne = .ok t →
            alistGet r "text_ocr" = some (.text t)) :=
  C3_ocr_iff_flag_and_available envAll docOne "doc" false fsEmpty

/-- C4 counterexample: on a one-page document whose OCR pass reads "x", the
OCR extractor does not return the claimed concatenation built from the
`"--- Page N ---"` marker: its marker reads `"--- Page 1 (OCR) ---"`. -/
theorem C4_ocr_marker_counterexample :
    extract_text_ocr envAll docOne ≠ .ok (specPageConcat pageMarker ["x"])
  ∧ extract_text_ocr envAll docOne = .ok "\n--- Page 1 (OCR) ---\nx" := by
  constructor
  · decide
  · decide

/-- C4 (amended): each text extractor, when its backend is available and the
pass succeeds on an N-page document, returns exactly the concatenation, for
each page in document order, of the 1-indexed page-boundary marker followed
by that page's extracted text (the empty string when a page yields nothing,
not an error) — so the result carries exactly N markers numbered 1..N in
order; PyPDF2 and pdfplumber use the marker `"--- Page N ---"`, while the
OCR extractor uses `"--- Page N (OCR) ---"`. -/
theorem C4_page_markers_amended (env : Availability) (doc : Doc) :
    (env.PYPDF2_AVAILABLE = true → ∀ pages, doc.pypdf2_pages = some pages →
        extract_text_pypdf2 env doc = .ok (specPageConcat pageMarker pages))
  ∧ (env.PDFPLUMBER_AVAILABLE = true → ∀ pages, doc.plumber_pages = some pages →
        extract_text_pdfplumber env doc
          = .ok (specPageConcat pageMarker (pages.map optText)))
  ∧ (env.OCR_AVAILABLE = true → ∀ pages, doc.ocr_pages = some pages →
        extract_text_ocr env doc = .ok (specPageConcat ocrPageMarker pages)) := by
  refine ⟨?_, ?_, ?_⟩
  · intro h pages hp
    simp [extract_text_pypdf2, h, hp, pypdf2Loop_eq_concat]
  · intro h pages hp
    simp [extract_text_pdfplumber, h, hp, plumberLoop_eq_concat]
  · intro h pages hp
    simp [extract_text_ocr, h, hp, ocrLoop_eq_concat]

/-- Witness for C4 (amended) at a concrete one-page document. -/
theorem C4_page_markers_amended_witness :
    extract_text_pypdf2 envAll docOne = .ok (specPageConcat pageMarker ["x"])
  ∧ extract_text_pdfplumber envAll docOne
      = .ok (specPageConcat pageMarker ([some "x"].map optText))
  ∧ extract_text_ocr envAll docOne = .ok (specPageConcat ocrPageMarker ["x"]) :=
  ⟨(C4_page_markers_amended envAll docOne).1 rfl ["x"] rfl,
   (C4_page_markers_amended envAll docOne).2.1 rfl [some "x"] rfl,
   (C4_page_markers_amended envAll docOne).2.2 rfl ["x"] rfl⟩

/-- C7: each single-method extractor raises `BackendUnavailable`
(`ImportError`) when its backend is missing, rather than returning a
result. -/
theorem C7_backend_unavailable_raises (env : Availability) (doc : Doc) :
    (env.PYPDF2_AVAILABLE = false →
        extract_text_pypdf2 env doc = .error .backendUnavailable)
  ∧ (env.PDFPLUMBER_AVAILABLE = false →
        extract_text_pdfplumber env doc = .error .backendUnavailable)
  ∧ (env.PDFPLUMBER_AVAILABLE = false →
        extract_tables_pdfplumber env doc = .error .backendUnavailable)
  ∧ (env.TABULA_AVAILABLE = false →
        extract_tables_tabula env doc = .error .backendUnavailable)
  ∧ (env.OCR_AVAILABLE = false →
        extract_text_ocr env doc = .error .backendUnavailable) := by
  refine ⟨?_, ?_, ?_, ?_, ?_⟩ <;> intro h <;>
    simp [extract_text_pypdf2, extract_text_pdfplumber, extract_tables_pdfplumber,
      extract_tables_tabula, extract_text_ocr, h]

/-- Witness for C7 with every backend missing. -/
theorem C7_backend_unavailable_raises_witness :
    extract_text_pypdf2 envMissing docOne = .error .backendUnavailable
  ∧ extract_text_pdfplumber envMissing docOne = .error .backendUnavailable
  ∧ extract_tables_pdfplumber envMissing docOne = .error .backendUnavailable
  ∧ extract_tables_tabula envMissing docOne = .error .backendUnavailable
  ∧ extract_text_ocr envMissing docOne = .error .backendUnavailable := by
  have h := C7_backend_unavailable_raises envMissing docOne
  exact ⟨h.1 rfl, h.2.1 rfl, h.2.2.1 rfl, h.2.2.2.1 rfl, h.2.2.2.2 rfl⟩

/-- C10: with PyPDF2 unavailable, `get_pdf_metadata` silently returns the
empty mapping — unlike the single-method extractor for the same backend,
which raises `BackendUnavailable` — so the metadata field assembled by
`extract_all_data` is empty with no signal to the caller. -/
theorem C10_metadata_silent_empty (env : Availability) (doc : Doc)
    (h : env.PYPDF2_AVAILABLE = false) :
    get_pdf_metadata env doc = []
  ∧ extract_text_pypdf2 env doc = .error .backendUnavailable
  ∧ (∀ (base : String) (u : Bool) (od : Option DirPath) (fs fs' : FS) (r : Results),
      extract_all_data env doc base u od fs = .ok (r, fs') →
      alistGet r "metadata" = some (.meta [])) := by
  refine ⟨?_, ?_, ?_⟩
  · simp [get_pdf_metadata, h]
  · simp [extract_text_pypdf2, h]
  · intro base u od fs fs' r hok
    have hr := extract_all_data_ok_results env doc base u od fs fs' r hok
    subst hr
    simp [finalResults, alistGet, get_pdf_metadata, h]

/-- Witness for C10 at a concrete input. -/
theorem C10_metadata_silent_empty_witness :
    get_pdf_metadata envMissing docOne = []
  ∧ extract_text_pypdf2 envMissing docOne = .error .backendUnavailable
  ∧ alistGet (finalResults envMissing docOne false) "metadata" = some (.meta []) := by
  have h := C10_metadata_silent_empty envMissing docOne rfl
  exact ⟨h.1, h.2.1, h.2.2 "doc" false none fsEmpty fsEmpty
    (finalResults envMissing docOne false)
    (extract_all_data_none_eq envMissing docOne "doc" false fsEmpty)⟩

/-- Decidable absence of a metadata field in the source document: the reader
reports no info dictionary at all, or the dictionary lacks the key. -/
def absentIn (info : Option (List (String × String))) (k : String) : Bool :=
  match info with
  | none => true
  | some i => (alistGet i k).isNone

theorem metadataContent_decomp (m : List (String × String)) (kv : String × String)
    (h : kv ∈ m) :
    ∃ pre post, metadataContent m = pre ++ (metaLine kv ++ post) := by
  obtain ⟨s, t, rfl⟩ := List.append_of_mem h
  refine ⟨String.join (s.map metaLine), String.join (t.map metaLine), ?_⟩
  unfold metadataContent
  rw [foldl_append_eq_join, String.empty_append, List.map_append, join_append_str,
    List.map_cons, join_cons]

theorem alistGet_of_mem_nodup {κ α : Type} [DecidableEq κ] (l : List (κ × α)) (k : κ)
    (v : α) (h : (k, v) ∈ l) (hn : (l.map Prod.fst).Nodup) : alistGet l k = some v := by
  induction l with
  | nil => cases h
  | cons p rest ih =>
    rw [List.map_cons] at hn
    have hn' := List.nodup_cons.mp hn
    rcases List.mem_cons.mp h with h1 | h2
    · rw [← h1]
      simp [alistGet]
    · have hk : p.1 ≠ k := by
        intro e
        apply hn'.1
        rw [e]
        exact List.mem_map_of_mem Prod.fst h2
      simp [alistGet, hk, ih h2 hn'.2]

/-- C5: for every document the metadata reader parses, each metadata field
absent in the source maps to the literal sentinel `"N/A"`, both in the
returned mapping and in the persisted metadata file content, and on total
failure to open or parse the document the reader returns an empty mapping
rather than raising to the caller. -/
theorem C5_metadata_na_sentinel (env : Availability) (doc : Doc) (m : PdfMeta)
    (field pdfKey : String)
    (henv : env.PYPDF2_AVAILABLE = true) (hm : doc.meta = some m)
    (hf : (field, pdfKey) ∈ metaFields)
    (habs : absentIn m.info pdfKey = true) :
    alistGet (get_pdf_metadata env doc) field = some "N/A"
  ∧ (∃ pre post, metadataContent (get_pdf_metadata env doc)
        = pre ++ (metaLine (field, "N/A") ++ post))
  ∧ (∀ doc' : Doc, doc'.meta = none → get_pdf_metadata env doc' = []) := by
  have hNA : metaGet m.info pdfKey = "N/A" := by
    cases hi : m.info with
    | none => rfl
    | some i =>
      rw [hi] at habs
      simp only [absentIn, Option.isNone_iff_eq_none] at habs
      simp [metaGet, habs]
  have hrec : get_pdf_metadata env doc = metaRecord m := by
    simp [get_pdf_metadata, henv, hm]
  have hmem : (field, "N/A") ∈ metaRecord m := by
    have h1 : (field, metaGet m.info pdfKey)
        ∈ metaFields.map (fun f => (f.1, metaGet m.info f.2)) :=
      List.mem_map_of_mem (fun f => (f.1, metaGet m.info f.2)) hf
    rw [hNA] at h1
    exact List.mem_cons_of_mem _ h1
  have hnodup : ((metaRecord m).map Prod.fst).Nodup := by
    have he : (metaRecord m).map Prod.fst
        = ["num_pages", "title", "author", "subject", "creator", "producer",
           "creation_date"] := rfl
    rw [he]
    decide
  refine ⟨?_, ?_, ?_⟩
  · rw [hrec]
    exact alistGet_of_mem_nodup (metaRecord m) field "N/A" hmem hnodup
  · rw [hrec]
    exact metadataContent_decomp (metaRecord m) (field, "N/A") hmem
  · intro doc' h'
    simp [get_pdf_metadata, henv, h']

/-- Witness for C5: a parsed document with no info dictionary, so that the
title field is absent from the source. -/
theorem C5_metadata_na_sentinel_witness :
    alistGet (get_pdf_metadata envAll docOne) "title" = some "N/A"
  ∧ (∃ pre post, metadataContent (get_pdf_metadata envAll docOne)
        = pre ++ (metaLine ("title", "N/A") ++ post))
  ∧ (∀ doc' : Doc, doc'.meta = none → get_pdf_metadata envAll doc' = []) :=
  C5_metadata_na_sentinel envAll docOne ⟨1, none⟩ "title" "/Title" rfl rfl
    (by decide) (by decide)

/-! File-name disjointness: for one base name, the files written by the
different sections of `save_results` never collide. -/

theorem headTwo_tabula_lit (r : String) :
    headTwo ("_tabula_table_" ++ r) = some ('_', 't') := by
  unfold headTwo
  rw [String.data_append]
  rfl

theorem tabulaSuffix_headTwo (i : Nat) :
    headTwo ("_tabula_table_" ++ toString (i + 1) ++ ".csv") = some ('_', 't') := by
  rw [String.append_assoc]
  exact headTwo_tabula_lit _

theorem textFileName_ne_tabula (base method : String) (hm : method ∈ textMethods)
    (i : Nat) : textFileName base method ≠ tabulaFileName base i := by
  unfold textFileName tabulaFileName
  apply str_append_ne
  apply ne_of_headTwo
  rw [tabulaSuffix_headTwo]
  fin_cases hm <;> decide

theorem plumberTablesFileName_ne_tabula (base : String) (i : Nat) :
    plumberTablesFileName base ≠ tabulaFileName base i := by
  unfold plumberTablesFileName tabulaFileName
  apply str_append_ne
  apply ne_of_headTwo
  rw [tabulaSuffix_headTwo]
  decide

theorem textFileName_ne_metadata (base method : String) (hm : method ∈ textMethods) :
    textFileName base method ≠ metadataFileName base := by
  unfold textFileName metadataFileName
  apply str_append_ne
  fin_cases hm <;> decide

theorem textFileName_ne_plumberTables (base method : String) (hm : method ∈ textMethods) :
    textFileName base method ≠ plumberTablesFileName base := by
  unfold textFileName plumberTablesFileName
  apply str_append_ne
  fin_cases hm <;> decide

theorem plumberTablesFileName_ne_metadata (base : String) :
    plumberTablesFileName base ≠ metadataFileName base := by
  unfold plumberTablesFileName metadataFileName
  apply str_append_ne
  decide

theorem textFileName_inj_method (base m1 m2 : String) (h1 : m1 ∈ textMethods)
    (h2 : m2 ∈ textMethods) (hne : m1 ≠ m2) :
    textFileName base m1 ≠ textFileName base m2 := by
  unfold textFileName
  apply str_append_ne
  fin_cases h1 <;> fin_cases h2 <;> first
    | exact absurd rfl hne
    | decide

theorem fpath_ne_of_name {d : DirPath} {n1 n2 : String} (h : n1 ≠ n2) :
    (d, n1) ≠ ((d, n2) : FPath) :=
  fun e => h (congrArg Prod.snd e)

/-! Preservation lemmas: which entries each write section leaves alone. -/

theorem writeFile_dirs (fs : FS) (p : FPath) (c : String) :
    (writeFile fs p c).dirs = fs.dirs := rfl

theorem foldl_dirs {α : Type} (f : FS → α → FS) (hf : ∀ fs a, (f fs a).dirs = fs.dirs)
    (l : List α) : ∀ fs : FS, (l.foldl f fs).dirs = fs.dirs := by
  induction l with
  | nil => intro fs; rfl
  | cons x xs ih => intro fs; rw [List.foldl_cons, ih, hf]

theorem writeTexts_dirs (base : String) (results : Results) (d : DirPath) (fs : FS) :
    (writeTexts base results d fs).dirs = fs.dirs := by
  unfold writeTexts
  apply foldl_dirs
  intro fs' method
  unfold textStep
  by_cases hb : (getText results ("text_" ++ method)).isEmpty = true <;>
    simp [hb, writeFile]

theorem writePlumberTables_dirs (base : String) (results : Results) (d : DirPath)
    (fs : FS) : (writePlumberTables base results d fs).dirs = fs.dirs := by
  unfold writePlumberTables
  by_cases hb : (getTablesP results).isEmpty = true <;> simp [hb, writeFile]

theorem tabulaFold_dirs (base : String) (d : DirPath) (ts : List (Nat × String)) :
    ∀ fs : FS,
      (ts.foldl (fun acc it => writeFile acc (d, tabulaFileName base it.1) it.2) fs).dirs
        = fs.dirs := by
  induction ts with
  | nil => intro fs; rfl
  | cons x xs ih => intro fs; rw [List.foldl_cons, ih]; rfl

theorem writeTabula_dirs (base : String) (results : Results) (d : DirPath) (fs : FS) :
    (writeTabula base results d fs).dirs = fs.dirs := by
  unfold writeTabula
  by_cases hb : (getTablesT results).isEmpty = true
  · simp [hb]
  · rw [if_neg hb]
    exact tabulaFold_dirs base d ((getTablesT results).enum) fs

theorem save_writes_dirs (base : String) (results : Results) (d : DirPath) (fs : FS) :
    (save_writes base results d fs).dirs = fs.dirs := by
  unfold save_writes writeMetadata
  rw [writeFile_dirs, writeTabula_dirs, writePlumberTables_dirs, writeTexts_dirs]

/-! Elimination lemmas for `mkdir_exist_ok` and `save_results`. -/

theorem mkdir_files (fs : FS) (d : DirPath) (fs1 : FS)
    (h : mkdir_exist_ok fs d = .ok fs1) : fs1.files = fs.files := by
  unfold mkdir_exist_ok at h
  by_cases h1 : d ∈ fs.dirs
  · rw [if_pos h1] at h
    rw [← Except.ok.inj h]
  · rw [if_neg h1] at h
    by_cases h2 : d.dropLast = [] ∨ d.dropLast ∈ fs.dirs
    · rw [if_pos h2] at h
      rw [← Except.ok.inj h]
    · rw [if_neg h2] at h
      exact Except.noConfusion h

theorem mkdir_mem_dirs (fs : FS) (d : DirPath) (fs1 : FS)
    (h : mkdir_exist_ok fs d = .ok fs1) : d ∈ fs1.dirs := by
  unfold mkdir_exist_ok at h
  by_cases h1 : d ∈ fs.dirs
  · rw [if_pos h1] at h
    rw [← Except.ok.inj h]
    exact h1
  · rw [if_neg h1] at h
    by_cases h2 : d.dropLast = [] ∨ d.dropLast ∈ fs.dirs
    · rw [if_pos h2] at h
      rw [← Except.ok.inj h]
      exact List.mem_cons_self d fs.dirs
    · rw [if_neg h2] at h
      exact Except.noConfusion h

theorem mkdir_of_mem (fs : FS) (d : DirPath) (h : d ∈ fs.dirs) :
    mkdir_exist_ok fs d = .ok fs := by
  unfold mkdir_exist_ok
  rw [if_pos h]

theorem mkdir_create (fs : FS) (d : DirPath) (h1 : d ∉ fs.dirs)
    (h2 : d.dropLast = [] ∨ d.dropLast ∈ fs.dirs) :
    mkdir_exist_ok fs d = .ok { fs with dirs := d :: fs.dirs } := by
  unfold mkdir_exist_ok
  rw [if_neg h1, if_pos h2]

theorem save_results_ok_elim (base : String) (results : Results) (d : DirPath)
    (fs fs' : FS) (h : save_results base results d fs = .ok fs') :
    ∃ fs1, mkdir_exist_ok fs d = .ok fs1 ∧ fs' = save_writes base results d fs1 := by
  unfold save_results at h
  cases hm : mkdir_exist_ok fs d with
  | ok fs1 =>
    rw [hm] at h
    exact ⟨fs1, rfl, (Except.ok.inj h).symm⟩
  | error e =>
    rw [hm] at h
    exact Except.noConfusion h

theorem save_results_of_mkdir (base : String) (results : Results) (d : DirPath)
    (fs fs1 : FS) (h : mkdir_exist_ok fs d = .ok fs1) :
    save_results base results d fs = .ok (save_writes base results d fs1) := by
  unfold save_results
  rw [h]
  rfl

/-! Lookup of individual files through the write sections. -/

theorem get_writeFile_self (fs : FS) (p : FPath) (c : String) :
    alistGet (writeFile fs p c).files p = some c :=
  alistGet_set_self fs.files p c

theorem get_writeFile_ne (fs : FS) (p q : FPath) (c : String) (h : q ≠ p) :
    alistGet (writeFile fs p c).files q = alistGet fs.files q :=
  alistGet_set_ne fs.files p q c h

theorem get_writeMetadata_ne (base : String) (results : Results) (d : DirPath) (fs : FS)
    (p : FPath) (h : p ≠ (d, metadataFileName base)) :
    alistGet (writeMetadata base results d fs).files p = alistGet fs.files p :=
  get_writeFile_ne fs (d, metadataFileName base) p _ h

theorem tabulaFold_get (base : String) (d : DirPath) (p : FPath)
    (hp : ∀ i : Nat, p ≠ (d, tabulaFileName base i)) (ts : List (Nat × String)) :
    ∀ fs : FS,
      alistGet ((ts.foldl (fun acc it =>
        writeFile acc (d, tabulaFileName base it.1) it.2) fs)).files p
      = alistGet fs.files p := by
  induction ts with
  | nil => intro fs; rfl
  | cons x xs ih =>
    intro fs
    rw [List.foldl_cons, ih]
    exact get_writeFile_ne fs (d, tabulaFileName base x.1) p x.2 (hp x.1)

theorem get_writeTabula_ne (base : String) (results : Results) (d : DirPath) (fs : FS)
    (p : FPath) (hp : ∀ i : Nat, p ≠ (d, tabulaFileName base i)) :
    alistGet (writeTabula base results d fs).files p = alistGet fs.files p := by
  unfold writeTabula
  by_cases hb : (getTablesT results).isEmpty = true
  · rw [if_pos hb]
  · rw [if_neg hb]
    exact tabulaFold_get base d p hp ((getTablesT results).enum) fs

theorem get_writePlumberTables_ne (base : String) (results : Results) (d : DirPath)
    (fs : FS) (p : FPath) (h : p ≠ (d, plumberTablesFileName base)) :
    alistGet (writePlumberTables base results d fs).files p = alistGet fs.files p := by
  unfold writePlumberTables
  by_cases hb : (getTablesP results).isEmpty = true
  · rw [if_pos hb]
  · rw [if_neg hb]
    exact get_writeFile_ne fs (d, plumberTablesFileName base) p _ h

theorem get_writePlumberTables_self (base : String) (results : Results) (d : DirPath)
    (fs : FS) (hne : (getTablesP results).isEmpty = false) :
    alistGet (writePlumberTables base results d fs).files (d, plumberTablesFileName base)
      = some (plumberTablesContent (getTablesP results)) := by
  unfold writePlumberTables
  rw [if_neg (by rw [hne]; exact Bool.false_ne_true)]
  exact get_writeFile_self fs (d, plumberTablesFileName base) _

theorem get_textStep_ne (base : String) (results : Results) (d : DirPath)
    (method : String) (acc : FS) (p : FPath) (h : p ≠ (d, textFileName base method)) :
    alistGet (textStep base results d acc method).files p = alistGet acc.files p := by
  unfold textStep
  by_cases hb : (getText results ("text_" ++ method)).isEmpty = true
  · rw [if_pos hb]
  · rw [if_neg hb]
    exact get_writeFile_ne acc (d, textFileName base method) p _ h

theorem get_textStep_written (base : String) (results : Results) (d : DirPath)
    (method : String) (acc : FS)
    (hne : (getText results ("text_" ++ method)).isEmpty = false) :
    alistGet (textStep base results d acc method).files (d, textFileName base method)
      = some (getText results ("text_" ++ method)) := by
  unfold textStep
  rw [if_neg (by rw [hne]; exact Bool.false_ne_true)]
  exact get_writeFile_self acc (d, textFileName base method) _

theorem get_textStep_skipped (base : String) (results : Results) (d : DirPath)
    (method : String) (acc : FS)
    (he : (getText results ("text_" ++ method)).isEmpty = true) :
    alistGet (textStep base results d acc method).files (d, textFileName base method)
      = alistGet acc.files (d, textFileName base method) := by
  unfold textStep
  rw [if_pos he]

theorem writeTexts_eq (base : String) (results : Results) (d : DirPath) (fs : FS) :
    writeTexts base results d fs
      = textStep base results d
          (textStep base results d
            (textStep base results d fs "pypdf2") "pdfplumber") "ocr" := rfl

/-- Sample assembled results with only the PyPDF2 text non-empty. -/
def resultsHi : Results :=
  [("metadata", .meta []), ("text_pypdf2", .text "hi"), ("text_pdfplumber", .text ""),
   ("text_ocr", .text ""), ("tables_pdfplumber", .tablesP []),
   ("tables_tabula", .tablesT [])]

/-- The file system produced by saving `resultsHi` into `fsOut`. -/
def fsSavedHi : FS :=
  ⟨[["out"]],
   [(((["out"] : DirPath), "doc_pypdf2_text.txt"), "hi"),
    (((["out"] : DirPath), "doc_metadata.txt"), "")]⟩

/-- C6 counterexample: saving a result whose PyPDF2 text is "hi" succeeds,
but no file named `doc_pypdf2_text` exists afterwards — the file the writer
persists is `doc_pypdf2_text.txt`, carrying the `.txt` extension the claim
omits. -/
theorem C6_text_file_name_counterexample :
    (save_results "doc" resultsHi ["out"] fsOut).toOption.map (fun fs' =>
        (alistGet fs'.files (["out"], "doc_pypdf2_text"),
         alistGet fs'.files (["out"], "doc_pypdf2_text.txt")))
      = some (none, some "hi") := by decide

/-- C6 (amended): for each of the three text fields with non-empty content,
`save_results` persists exactly one file named
`<documentBaseName>_<method>_text.txt` relative to the output directory,
with the field's text written verbatim; a field with empty content leaves
that file untouched. -/
theorem C6_text_files_amended (base : String) (results : Results) (d : DirPath)
    (fs fs' : FS) (method : String) (hm : method ∈ textMethods)
    (h : save_results base results d fs = .ok fs') :
    ((getText results ("text_" ++ method)).isEmpty = false →
        alistGet fs'.files (d, textFileName base method)
          = some (getText results ("text_" ++ method)))
  ∧ ((getText results ("text_" ++ method)).isEmpty = true →
        alistGet fs'.files (d, textFileName base method)
          = alistGet fs.files (d, textFileName base method)) := by
  obtain ⟨fs1, hmk, rfl⟩ := save_results_ok_elim base results d fs fs' h
  have hf1 : fs1.files = fs.files := mkdir_files fs d fs1 hmk
  have hreduce :
      alistGet (save_writes base results d fs1).files (d, textFileName base method)
        = alistGet (writeTexts base results d fs1).files (d, textFileName base method) := by
    unfold save_writes
    rw [get_writeMetadata_ne base results d _ _
        (fpath_ne_of_name (textFileName_ne_metadata base method hm)),
      get_writeTabula_ne base results d _ _
        (fun i => fpath_ne_of_name (textFileName_ne_tabula base method hm i)),
      get_writePlumberTables_ne base results d _ _
        (fpath_ne_of_name (textFileName_ne_plumberTables base method hm))]
  rw [hreduce, writeTexts_eq]
  fin_cases hm
  · rw [get_textStep_ne base results d "ocr" _ _
        (fpath_ne_of_name (textFileName_inj_method base "pypdf2" "ocr"
          (by decide) (by decide) (by decide))),
      get_textStep_ne base results d "pdfplumber" _ _
        (fpath_ne_of_name (textFileName_inj_method base "pypdf2" "pdfplumber"
          (by decide) (by decide) (by decide)))]
    constructor
    · intro hne
      rw [get_textStep_written base results d "pypdf2" fs1 hne]
    · intro he
      rw [get_textStep_skipped base results d "pypdf2" fs1 he, hf1]
  · rw [get_textStep_ne base results d "ocr" _ _
        (fpath_ne_of_name (textFileName_inj_method base "pdfplumber" "ocr"
          (by decide) (by decide) (by decide)))]
    constructor
    · intro hne
      rw [get_textStep_written base results d "pdfplumber" _ hne]
    · intro he
      rw [get_textStep_skipped base results d "pdfplumber" _ he,
        get_textStep_ne base results d "pypdf2" _ _
          (fpath_ne_of_name (textFileName_inj_method base "pdfplumber" "pypdf2"
            (by decide) (by decide) (by decide))), hf1]
  · constructor
    · intro hne
      rw [get_textStep_written base results d "ocr" _ hne]
    · intro he
      rw [get_textStep_skipped base results d "ocr" _ he,
        get_textStep_ne base results d "pdfplumber" _ _
          (fpath_ne_of_name (textFileName_inj_method base "ocr" "pdfplumber"
            (by decide) (by decide) (by decide))),
        get_textStep_ne base results d "pypdf2" _ _
          (fpath_ne_of_name (textFileName_inj_method base "ocr" "pypdf2"
            (by decide) (by decide) (by decide))), hf1]

/-- Witness for C6 (amended) on the sample save of `resultsHi`. -/
theorem C6_text_files_amended_witness :
    (getText resultsHi "text_pypdf2").isEmpty = false
  ∧ alistGet fsSavedHi.files (["out"], textFileName "doc" "pypdf2")
      = some (getText resultsHi "text_pypdf2") := by
  have h := C6_text_files_amended "doc" resultsHi ["out"] fsOut fsSavedHi "pypdf2"
    (by decide) (by decide)
  exact ⟨by decide, h.1 (by decide)⟩

theorem plumberTablesGo (tables : List Table) : ∀ (n : Nat) (acc : String),
    (tables.enumFrom n).foldl (fun acc2 it =>
        it.2.foldl (fun a row => a ++ rowLine row) (acc2 ++ tableHeader (it.1 + 1))) acc
      = acc ++ String.join ((tables.enumFrom n).map (fun it =>
          tableHeader (it.1 + 1) ++ String.join (it.2.map rowLine))) := by
  induction tables with
  | nil => intro n acc; exact (String.append_empty acc).symm
  | cons tb rest ih =>
    intro n acc
    simp only [List.enumFrom, List.foldl_cons, List.map_cons]
    rw [foldl_append_eq_join rowLine tb, ih, join_cons]
    simp [String.append_assoc]

theorem plumberTablesContent_eq (tables : List Table) :
    plumberTablesContent tables
      = String.join (tables.enum.map (fun it =>
          tableHeader (it.1 + 1) ++ String.join (it.2.map rowLine))) := by
  have h := plumberTablesGo tables 0 ""
  rw [String.empty_append] at h
  exact h

/-- C8: when the pdfplumber table list is non-empty, `save_results` writes
one combined file whose content places before each table i (1-indexed) the
header `"=== Table i (pdfplumber) ==="` and renders each row as its cells
joined by tabs, the empty string substituted for missing cells. -/
theorem C8_pdfplumber_tables_file (base : String) (results : Results) (d : DirPath)
    (fs fs' : FS) (h : save_results base results d fs = .ok fs')
    (hne : (getTablesP results).isEmpty = false) :
    alistGet fs'.files (d, plumberTablesFileName base)
      = some (String.join ((getTablesP results).enum.map (fun it =>
          tableHeader (it.1 + 1)
            ++ String.join (it.2.map (fun row =>
                 String.intercalate "\t" (row.map cellStr) ++ "\n"))))) := by
  obtain ⟨fs1, hmk, rfl⟩ := save_results_ok_elim base results d fs fs' h
  unfold save_writes
  rw [get_writeMetadata_ne base results d _ _
      (fpath_ne_of_name (plumberTablesFileName_ne_metadata base)),
    get_writeTabula_ne base results d _ _
      (fun i => fpath_ne_of_name (plumberTablesFileName_ne_tabula base i)),
    get_writePlumberTables_self base results d _ hne,
    plumberTablesContent_eq]
  rfl

/-- Sample assembled results carrying one pdfplumber table with one row of a
present and a missing cell. -/
def resultsTab : Results :=
  [("metadata", .meta []), ("text_pypdf2", .text ""), ("text_pdfplumber", .text ""),
   ("text_ocr", .text ""), ("tables_pdfplumber", .tablesP [[[some "a", none]]]),
   ("tables_tabula", .tablesT [])]

/-- The file system produced by saving `resultsTab` into `fsOut`. -/
def fsSavedTab : FS :=
  ⟨[["out"]],
   [(((["out"] : DirPath), "doc_pdfplumber_tables.txt"),
       "\n=== Table 1 (pdfplumber) ===\na\t\n"),
    (((["out"] : DirPath), "doc_metadata.txt"), "")]⟩

/-- Witness for C8 on the sample save of `resultsTab`. -/
theorem C8_pdfplumber_tables_file_witness :
    alistGet fsSavedTab.files (["out"], plumberTablesFileName "doc")
      = some (String.join ((getTablesP resultsTab).enum.map (fun it =>
          tableHeader (it.1 + 1)
            ++ String.join (it.2.map (fun row =>
                 String.intercalate "\t" (row.map cellStr) ++ "\n"))))) :=
  C8_pdfplumber_tables_file "doc" resultsTab ["out"] fsOut fsSavedTab
    (by decide) (by decide)

/-- C9 counterexample: a missing two-component output directory whose parent
also does not exist is not created — `save_results` raises
`FileNotFoundError` instead, because `Path.mkdir` is called without
`parents=True`. -/
theorem C9_mkdir_missing_parent_counterexample :
    ["a", "b"] ∉ fsEmpty.dirs
  ∧ save_results "doc" resultsHi ["a", "b"] fsEmpty = .error .fileNotFound := by
  constructor
  · decide
  · decide

/-- C9 (amended): `save_results` ensures the output directory exists before
writing any file: an already existing directory raises no error and leaves
the directory set unchanged, and a missing directory is created provided its
parent exists (directory creation is non-recursive, so a missing parent
raises instead). -/
theorem C9_output_dir_ensured_amended (base : String) (results : Results) (d : DirPath)
    (fs : FS) (h : d ∈ fs.dirs ∨ d.dropLast = [] ∨ d.dropLast ∈ fs.dirs) :
    ∃ fs', save_results base results d fs = .ok fs'
      ∧ d ∈ fs'.dirs
      ∧ (d ∈ fs.dirs → fs'.dirs = fs.dirs) := by
  by_cases hmem : d ∈ fs.dirs
  · refine ⟨save_writes base results d fs,
      save_results_of_mkdir base results d fs fs (mkdir_of_mem fs d hmem), ?_, ?_⟩
    · rw [save_writes_dirs]
      exact hmem
    · intro _
      rw [save_writes_dirs]
  · have h2 : d.dropLast = [] ∨ d.dropLast ∈ fs.dirs := h.resolve_left hmem
    refine ⟨save_writes base results d { fs with dirs := d :: fs.dirs },
      save_results_of_mkdir base results d fs _ (mkdir_create fs d hmem h2), ?_, ?_⟩
    · rw [save_writes_dirs]
      exact List.mem_cons_self _ _
    · intro hc
      exact absurd hc hmem

/-- Witness for C9 (amended) on an existing output directory. -/
theorem C9_output_dir_ensured_amended_witness :
    ∃ fs', save_results "doc" resultsHi ["out"] fsOut = .ok fs'
      ∧ ["out"] ∈ fs'.dirs
      ∧ (["out"] ∈ fsOut.dirs → fs'.dirs = fsOut.dirs) :=
  C9_output_dir_ensured_amended "doc" resultsHi ["out"] fsOut (Or.inl (by decide))
